import Mathlib

/-!
Shallow embedding of the pump.fun migration alert bot's core pipeline:
the migration detector (`src/detectors/migration.ts`, newer revision),
the orchestrator's fetch queue / dedup ledger (`src/index.ts`), and the
WebSocket client's reconnect policy (`src/websocket/helius.ts`).

Strings model JS strings (the addresses and log lines involved are ASCII,
so JS `length`, `toLowerCase`, `includes`, `endsWith` coincide with the
character-list operations used here).  Absent / `undefined` fields are
modelled with `Option`; JS truthiness on strings ("" is falsy) is modelled
explicitly.  Real-time aspects (timestamps, delays) are outside the
embedding; the queue and retry logic are modelled as pure state transitions.
-/

namespace PumpBot

/-- JS substring test `s.includes(pat)`: `pat` occurs as an infix of `s`. -/
def strContains (s pat : String) : Bool :=
  decide (pat.toList <:+: s.toList)

/-- JS `s.toLowerCase()` for the ASCII strings handled by the bot. -/
def lowerStr (s : String) : String :=
  String.mk (s.toList.map Char.toLower)

/-- JS `arr.join(' ')`. -/
def joinSp : List String → String
  | [] => ""
  | [s] => s
  | s :: rest => s ++ " " ++ joinSp rest

/-- JS truthiness of an optional string value (`undefined` and `""` are falsy). -/
def truthy : Option String → Bool
  | none => false
  | some s => s ≠ ""

/-- JS `a || b` on optional string values. -/
def jsOrS (a b : Option String) : Option String :=
  if truthy a then a else b

/-- JS `if (x) return x;` on an optional string value. -/
def truthyOpt (o : Option String) : Option String :=
  if truthy o then o else none

/-- The configuration fields the detector reads (`config.pumpFunProgramId`,
`config.pumpFunAmmProgramId`). -/
structure Config where
  pumpFunProgramId : String
  pumpFunAmmProgramId : String

/-- One parsed top-level instruction, with exactly the fields the detector's
`any`-typed code reads: `programId`, `program`, `parsed?.type`,
`parsed?.info?.mint`, `parsed?.info?.tokenMint`, `data`, `accounts`. -/
structure Ix where
  programId : Option String
  program : Option String
  parsedType : Option String
  parsedInfoMint : Option String
  parsedInfoTokenMint : Option String
  dataStr : Option String
  accounts : Option (List Int)

/-- `tx.transaction.message`: account keys (already stringified, as the
source maps `key.pubkey?.toString() || key.toString()`) and instructions. -/
structure TxMessage where
  accountKeys : Option (List String)
  instructions : Option (List Ix)

/-- `tx.transaction`. -/
structure TxTransaction where
  message : TxMessage

/-- `tx.meta`: execution error and log messages. -/
structure TxMeta where
  err : Option String
  logMessages : Option (List String)

/-- A fetched `ParsedTransactionWithMeta`. -/
structure Tx where
  transaction : TxTransaction
  meta : Option TxMeta

/-- `MigrationDetectionResult`. -/
structure MigrationDetectionResult where
  isMigration : Bool
  tokenMint : Option String
  signature : Option String
deriving DecidableEq, Repr

/-- The log half of `hasMigrateInstruction`: some log line contains the
literal `"Instruction: Migrate"` (JS `log.includes(...)`, case-sensitive). -/
def hasMigrateLog (logMessages : List String) : Bool :=
  logMessages.any (fun log => strContains log "Instruction: Migrate")

/-- The instruction half of `hasMigrateInstruction`: the instruction's
`programId || program` equals the configured pump.fun program id and its
data mentions `migrate` or its parsed type is `migrate`. -/
def ixMigrateMatch (cfg : Config) (ix : Ix) : Bool :=
  (jsOrS ix.programId ix.program == some cfg.pumpFunProgramId) &&
    ((match ix.dataStr with
      | some d => strContains d "migrate"
      | none => false) ||
     ix.parsedType == some "migrate")

/-- `MigrationDetector.hasMigrateInstruction`. -/
def hasMigrateInstruction (cfg : Config) (instructions : List Ix)
    (logMessages : List String) : Bool :=
  if hasMigrateLog logMessages then true
  else instructions.any (ixMigrateMatch cfg)

/-- The fee-collection / administrative exclusion check in
`detectMigrationFromTransaction` (`hasCollectFee`). -/
def hasCollectFee (logMessages : List String) : Bool :=
  logMessages.any (fun log =>
    strContains log "Instruction: CollectCreatorFee" ||
    strContains log "Instruction: MigrateBondingCurveCreator" ||
    strContains log "Instruction: DistributeCreatorFees")

/-- `account.endsWith('pump') && account.length === 44`. -/
def isPumpAddr (a : String) : Bool :=
  (decide ("pump".toList <:+ a.toList)) && a.length == 44

/-- The fixed skip-list of the fallback tier in `extractTokenMint`:
system program, the two token programs, the associated-token program, and
the two configured program ids. -/
def isKnownAddr (cfg : Config) (a : String) : Bool :=
  a == "11111111111111111111111111111111" ||
  a == "TokenkegQfeZyiNwAJbNbGKPFXCWuBvf9Ss623VQ5DA" ||
  a == "TokenzQdBNbLqP5VEhdkAS6EPFLC1PHnBqCXEpPxuEb" ||
  a == "ATokenGPvbdGVxr1b2hvZbsiqW5xWH25efTNsLJA8knL" ||
  a == cfg.pumpFunProgramId ||
  a == cfg.pumpFunAmmProgramId

/-- The index lookup in the per-instruction accounts loop:
`index >= 0 && index < accountKeysArray.length` guarding
`accountKeysArray[index]`. -/
def lookupKey (keys : List String) (i : Int) : Option String :=
  if 0 ≤ i ∧ i < (keys.length : Int) then keys.get? i.toNat else none

/-- The per-instruction decoded-payload checks of `extractTokenMint`:
for `transfer`/`transferChecked` instructions,
`parsed.info.mint || parsed.info.tokenMint`; then `parsed.info.mint`. -/
def payloadMint (ix : Ix) : Option String :=
  match (if ix.parsedType == some "transfer" || ix.parsedType == some "transferChecked"
         then truthyOpt (jsOrS ix.parsedInfoMint ix.parsedInfoTokenMint)
         else none) with
  | some m => some m
  | none => truthyOpt ix.parsedInfoMint

/-- The per-instruction accounts-array check of `extractTokenMint`: the first
referenced account key that looks like a pump mint address. -/
def accountsMint (keys : List String) (ix : Ix) : Option String :=
  match ix.accounts with
  | none => none
  | some idxs => idxs.findSome? (fun i =>
      match lookupKey keys i with
      | some a => if isPumpAddr a then some a else none
      | none => none)

/-- The body of the instruction loop in `extractTokenMint`: payload checks
first, then the accounts array, in source order. -/
def ixMintStep (keys : List String) (ix : Ix) : Option String :=
  match payloadMint ix with
  | some m => some m
  | none => accountsMint keys ix

/-- `MigrationDetector.extractTokenMint(tx.transaction, instructions)`. -/
def extractTokenMint (cfg : Config) (t : TxTransaction) (instructions : List Ix) :
    Option String :=
  let accountKeysArray := t.message.accountKeys.getD []
  match accountKeysArray.find? isPumpAddr with
  | some a => some a
  | none =>
    match instructions.findSome? (ixMintStep accountKeysArray) with
    | some m => some m
    | none =>
      accountKeysArray.find? (fun a => a.length == 44 && !(isKnownAddr cfg a))

/-- `MigrationDetector.detectMigrationFromTransaction`. -/
def detectMigrationFromTransaction (cfg : Config) (otx : Option Tx)
    (signature : String) : MigrationDetectionResult :=
  match otx with
  | none => ⟨false, none, none⟩
  | some tx =>
    match tx.meta with
    | none => ⟨false, none, none⟩
    | some m =>
      if m.err.isSome then ⟨false, none, none⟩
      else
        let instructions := tx.transaction.message.instructions.getD []
        let logMessages := m.logMessages.getD []
        let hasMigrate := hasMigrateInstruction cfg instructions logMessages
        let hasFee := hasCollectFee logMessages
        if hasMigrate && !hasFee then
          ⟨true, extractTokenMint cfg tx.transaction instructions, some signature⟩
        else ⟨false, none, none⟩

/-! Orchestrator model: src/index.ts -/

/-- The orchestrator's cheap pre-filter `hasMigrationIndicators(logs)`:
joins the log lines with spaces, lower-cases the text, and looks for any of
four keyword patterns.  (The `!Array.isArray(logs)` guard is vacuous here
since the model's logs are always a list.) -/
def hasMigrationIndicators (logs : List String) : Bool :=
  let logText := lowerStr (joinSp logs)
  strContains logText "migrate" ||
  strContains logText "migration" ||
  (strContains logText "burn" && strContains logText "lp") ||
  strContains logText "pump.fun: migration"

/-- The rate-limit test in the orchestrator's catch handler:
`error?.message?.includes('429') || error?.message?.includes('Too Many Requests')`. -/
def isRateLimitError (msg : String) : Bool :=
  strContains msg "429" || strContains msg "Too Many Requests"

/-- Ledger maintenance: `if (processedSignatures.size > 1000)` remove the
earliest-inserted entries (`Array.from(set).slice(0, size - 1000)`), keeping
the most recent 1000.  The list is in insertion order, oldest first. -/
def cleanupLedger (l : List String) : List String :=
  if l.length > 1000 then l.drop (l.length - 1000) else l

/-- Outcome of `connection.getParsedTransaction(signature, ...)`:
`null`, a transaction, or a thrown error carrying a message. -/
inductive FetchOutcome where
  | notFound
  | ok (tx : Tx)
  | err (msg : String)

/-- The orchestrator's collaborators, abstracted as oracles: the RPC fetch,
the transaction parser (`parseMigrationTransactionFromParsed`, reduced to
the token mint it yields, `none` when it returns `null` or a falsy mint),
and whether `tokenDataFetcher.fetchTokenData` finds data for a mint. -/
structure Env where
  cfg : Config
  fetch : String → FetchOutcome
  parseResult : Tx → Option String → String → Option String
  tokenDataFound : String → Bool

/-- Orchestrator state: the dedup ledger (`processedSignatures`, insertion
order, oldest first), the fetch queue (`pendingFetches` signatures), and
instrumentation counters for fetches, detector runs and alerts sent. -/
structure OrchState where
  ledger : List String
  queue : List String
  fetchCount : Nat
  classifyCount : Nat
  alerts : List String
deriving DecidableEq, Repr

/-- `fetchAndProcessTransaction(signature)`, as a pure state transition.
Mirrors the source: skip if the signature is already in the ledger; fetch;
on `null` return; on success run the detector, return on a negative
classification *without* touching the ledger, otherwise add to the ledger,
parse, alert, and run ledger maintenance only on the full-data path; on a
thrown rate-limit error re-enqueue at the back (re-checking the ledger, as
the `setTimeout` callback does), and drop every other error. -/
def fetchAndProcessTransaction (env : Env) (signature : String)
    (st : OrchState) : OrchState :=
  if signature ∈ st.ledger then st
  else
    let st1 := { st with fetchCount := st.fetchCount + 1 }
    match env.fetch signature with
    | .notFound => st1
    | .err msg =>
      if isRateLimitError msg then
        if signature ∈ st1.ledger then st1
        else { st1 with queue := st1.queue ++ [signature] }
      else st1
    | .ok tx =>
      let st2 := { st1 with classifyCount := st1.classifyCount + 1 }
      let detection := detectMigrationFromTransaction env.cfg (some tx) signature
      if !detection.isMigration then st2
      else
        let st3 := { st2 with ledger := st2.ledger ++ [signature] }
        match env.parseResult tx detection.tokenMint signature with
        | none => st3
        | some mint =>
          let st4 := { st3 with alerts := st3.alerts ++ [signature] }
          if env.tokenDataFound mint then
            { st4 with ledger := cleanupLedger st4.ledger }
          else st4

/-- One iteration of the `processFetchQueue` drain loop: dequeue the front
item and run `fetchAndProcessTransaction` on it.  (The staleness drop is a
real-time concern outside the embedding.) -/
def processQueueStep (env : Env) (st : OrchState) : OrchState :=
  match st.queue with
  | [] => st
  | sig :: rest => fetchAndProcessTransaction env sig { st with queue := rest }

/-- The WebSocket message callback for a logs notification carrying a
signature: pre-filter on the logs when present, then enqueue. -/
def onLogsNotification (logs : List String) (signature : String)
    (st : OrchState) : OrchState :=
  if logs.length > 0 && !hasMigrationIndicators logs then st
  else { st with queue := st.queue ++ [signature] }

/-! WebSocket client reconnect policy: src/websocket/helius.ts -/

/-- `maxReconnectAttempts` in `HeliusWebSocketClient`. -/
def maxReconnectAttempts : Nat := 10

/-- The fixed reconnect delay (`reconnectDelay = 1000` ms). -/
def reconnectDelayMs : Nat := 1000

/-- The fixed re-enqueue delay of the orchestrator's rate-limit retry
(`setTimeout(..., 2000)`). -/
def rateLimitRetryDelayMs : Nat := 2000

/-- WebSocket client reconnect state: `reconnectAttempts`, `isReconnecting`,
whether a reconnect timer is pending (`reconnectInterval !== null`), and a
history counter of reconnect attempts actually scheduled. -/
structure WsState where
  reconnectAttempts : Nat
  isReconnecting : Bool
  timerSet : Bool
  attemptLog : Nat
deriving DecidableEq, Repr

/-- `cleanup()`: clears pending timers (it does not reset `isReconnecting`). -/
def wsCleanup (st : WsState) : WsState := { st with timerSet := false }

/-- `scheduleReconnect()`. -/
def scheduleReconnect (st : WsState) : WsState :=
  if st.isReconnecting then st
  else if st.reconnectAttempts ≥ maxReconnectAttempts then st
  else { st with
          isReconnecting := true
          reconnectAttempts := st.reconnectAttempts + 1
          timerSet := true
          attemptLog := st.attemptLog + 1 }

/-- The two authentication/authorization close codes the close handler
treats as terminal. -/
def isAuthCloseCode (code : Nat) : Bool := code == 1008 || code == 1003

/-- The `close` handler: terminal on an auth code (return before any
reconnect), otherwise `cleanup()` then `scheduleReconnect()`. -/
def handleClose (code : Nat) (st : WsState) : WsState :=
  if isAuthCloseCode code then st
  else scheduleReconnect (wsCleanup st)

/-- The reconnect timer firing: clears the timer and `isReconnecting`, then
re-runs `connect()` (whose failure surfaces as the next close event). -/
def timerFire (st : WsState) : WsState :=
  if st.timerSet then { st with timerSet := false, isReconnecting := false }
  else st

/-- The `open` handler resets the consecutive-attempt counter. -/
def handleOpen (st : WsState) : WsState := { st with reconnectAttempts := 0 }

/-- One full disconnect cycle without a successful open in between: a close
event followed by the scheduled timer (if any) firing. -/
def discCycle (code : Nat) (st : WsState) : WsState :=
  timerFire (handleClose code st)

/-- Client state at construction. -/
def wsInit : WsState := ⟨0, false, false, 0⟩

/-! Concrete sample data used to evaluate the model. -/

/-- The two program ids the bot is configured with (pump.fun and its AMM). -/
def sampleCfg : Config :=
  ⟨"6EF8rrecthR5Dkzon8Nwu78hRvfCKubJ14M5uBEwF6P",
   "pAMMBay6oceH9fJKBRHGP5D4bD4sWpmSwMn52FMfXEA"⟩

/-- An instruction whose program id is the watched program and whose parsed
type is `migrate`, with no log evidence attached. -/
def migIx : Ix :=
  ⟨some "6EF8rrecthR5Dkzon8Nwu78hRvfCKubJ14M5uBEwF6P", none, some "migrate",
   none, none, none, none⟩

/-- A transaction with empty logs whose only instruction is `migIx`. -/
def txNoLogs : Tx := ⟨⟨⟨some [], some [migIx]⟩⟩, some ⟨none, some []⟩⟩

/-- A 44-character address ending in the vanity suffix. -/
def samplePumpAddr : String := "AAAAAAAAAAAAAAAAAAAAAAAAAAAAAAAAAAAAAAAApump"

/-- A second, distinct 44-character address ending in the vanity suffix. -/
def samplePumpAddr2 : String := "BBBBBBBBBBBBBBBBBBBBBBBBBBBBBBBBBBBBBBBBpump"

/-- An instruction whose accounts array references top-level key index 1. -/
def nestedIx : Ix := ⟨none, none, none, none, none, none, some [1]⟩

/-- A successful migration transaction: clean execution, the migrate log
line, and a vanity-suffix mint in the top-level account keys. -/
def migTx : Tx :=
  ⟨⟨⟨some [samplePumpAddr], some []⟩⟩,
   some ⟨none, some ["Program log: Instruction: Migrate"]⟩⟩

/-- A fee-collection transaction: carries the migrate marker (as a prefix of
the `MigrateBondingCurveCreator` marker would too) together with an
exclusion marker, so the detector must reject it. -/
def nonMigTx : Tx :=
  ⟨⟨⟨some [], some []⟩⟩,
   some ⟨none, some ["Program log: Instruction: Migrate",
                     "Program log: Instruction: CollectCreatorFee"]⟩⟩

/-- Environment whose fetch always yields `migTx`. -/
def sampleEnvMig : Env :=
  ⟨sampleCfg, fun _ => .ok migTx, fun _ dm _ => dm, fun _ => true⟩

/-- Environment whose fetch always yields `nonMigTx`. -/
def sampleEnvNonMig : Env :=
  ⟨sampleCfg, fun _ => .ok nonMigTx, fun _ dm _ => dm, fun _ => true⟩

/-- Environment whose fetch always throws a rate-limit error. -/
def sampleEnvErr : Env :=
  ⟨sampleCfg, fun _ => .err "429 Too Many Requests", fun _ dm _ => dm,
   fun _ => true⟩

/-- Orchestrator state at startup: empty ledger, empty queue. -/
def orchInit : OrchState := ⟨[], [], 0, 0, []⟩

/-! Definitions written from the spec's words, for comparison with the
definitions taken from the source. -/

/-- The token-mint extraction as the spec's four strict tiers order it:
(a) the whole top-level account list; then (b) every instruction's account
indices; then (c) every instruction's decoded payload; then (d) the
length-44 fallback.  Tier contents are the source's checks; only the
ordering follows the spec's words (the source interleaves (b) and (c) per
instruction, payload first). -/
def extractTokenMintSpecTiers (cfg : Config) (t : TxTransaction)
    (instructions : List Ix) : Option String :=
  let keys := t.message.accountKeys.getD []
  match keys.find? isPumpAddr with
  | some a => some a
  | none =>
    match instructions.findSome? (accountsMint keys) with
    | some m => some m
    | none =>
      match instructions.findSome? payloadMint with
      | some m => some m
      | none => keys.find? (fun a => a.length == 44 && !(isKnownAddr cfg a))

/-- The classification rule exactly as the claim words it, over log lines
only: the logs contain the migration marker and none of the exclusion
markers. -/
def specLogOnlyClassification (logs : List String) : Prop :=
  (∃ l ∈ logs, "Instruction: Migrate".toList <:+: l.toList) ∧
  (∀ l ∈ logs,
    ¬ ("Instruction: CollectCreatorFee".toList <:+: l.toList) ∧
    ¬ ("Instruction: MigrateBondingCurveCreator".toList <:+: l.toList) ∧
    ¬ ("Instruction: DistributeCreatorFees".toList <:+: l.toList))

instance (logs : List String) : Decidable (specLogOnlyClassification logs) := by
  unfold specLogOnlyClassification
  infer_instance

/-! Helper lemmas. -/

theorem sub_append_left {α : Type} (l₁ l₂ : List α) : l₁ <:+: l₁ ++ l₂ :=
  ⟨[], l₂, by simp⟩

theorem sub_append_right {α : Type} (l₁ l₂ : List α) : l₁ <:+: l₂ ++ l₁ :=
  ⟨l₂, [], by simp⟩

theorem sub_trans {α : Type} {l₁ l₂ l₃ : List α}
    (h₁ : l₁ <:+: l₂) (h₂ : l₂ <:+: l₃) : l₁ <:+: l₃ := by
  rcases h₁ with ⟨a, b, rfl⟩
  rcases h₂ with ⟨c, d, rfl⟩
  exact ⟨c ++ a, b ++ d, by simp⟩

theorem sub_map {α β : Type} (f : α → β) {l₁ l₂ : List α}
    (h : l₁ <:+: l₂) : l₁.map f <:+: l₂.map f := by
  rcases h with ⟨a, b, rfl⟩
  exact ⟨a.map f, b.map f, by simp⟩

theorem strContains_iff (s p : String) :
    strContains s p = true ↔ p.toList <:+: s.toList := by
  simp [strContains]

theorem toList_strAppend (a b : String) :
    (a ++ b).toList = a.toList ++ b.toList := rfl

theorem lowerStr_toList (s : String) :
    (lowerStr s).toList = s.toList.map Char.toLower := rfl

theorem mem_sub_joinSp {l : String} {logs : List String} (h : l ∈ logs) :
    l.toList <:+: (joinSp logs).toList := by
  induction logs with
  | nil => cases h
  | cons x rest ih =>
    cases rest with
    | nil =>
      rw [List.mem_singleton] at h
      subst h
      exact ⟨[], [], by simp [joinSp]⟩
    | cons y t =>
      rcases List.mem_cons.mp h with h1 | h2
      · subst h1
        show l.toList <:+: (l ++ " " ++ joinSp (y :: t)).toList
        rw [toList_strAppend, toList_strAppend]
        exact sub_trans (sub_append_left _ _)
          (sub_append_left (l.toList ++ " ".toList) (joinSp (y :: t)).toList)
      · have hx := ih h2
        show l.toList <:+: (x ++ " " ++ joinSp (y :: t)).toList
        rw [toList_strAppend]
        exact sub_trans hx (sub_append_right _ _)

theorem findSome?_eq_none_of {α β : Type} {f : α → Option β} {l : List α}
    (h : ∀ x ∈ l, f x = none) : l.findSome? f = none := by
  induction l with
  | nil => rfl
  | cons a t ih =>
    have ha := h a (List.mem_cons_self a t)
    have ht : ∀ x ∈ t, f x = none := fun x hx => h x (List.mem_cons_of_mem a hx)
    simp [List.findSome?_cons, ha, ih ht]

theorem findSome?_congr_of {α β : Type} {f g : α → Option β} {l : List α}
    (h : ∀ x ∈ l, f x = g x) : l.findSome? f = l.findSome? g := by
  induction l with
  | nil => rfl
  | cons a t ih =>
    have ha := h a (List.mem_cons_self a t)
    have ht : ∀ x ∈ t, f x = g x := fun x hx => h x (List.mem_cons_of_mem a hx)
    simp only [List.findSome?_cons, ha, ih ht]

theorem hasMigrateLog_iff (logs : List String) :
    hasMigrateLog logs = true ↔
      ∃ l ∈ logs, "Instruction: Migrate".toList <:+: l.toList := by
  simp [hasMigrateLog, strContains, List.any_eq_true]

theorem hasCollectFee_eq_false_iff (logs : List String) :
    hasCollectFee logs = false ↔
      ∀ l ∈ logs,
        ¬ ("Instruction: CollectCreatorFee".toList <:+: l.toList) ∧
        ¬ ("Instruction: MigrateBondingCurveCreator".toList <:+: l.toList) ∧
        ¬ ("Instruction: DistributeCreatorFees".toList <:+: l.toList) := by
  simp [hasCollectFee, strContains, List.any_eq_false, not_or, and_assoc]

theorem hasMigrateInstruction_eq (cfg : Config) (ins : List Ix)
    (logs : List String) :
    hasMigrateInstruction cfg ins logs =
      (hasMigrateLog logs || ins.any (ixMigrateMatch cfg)) := by
  unfold hasMigrateInstruction
  cases h : hasMigrateLog logs <;> simp [h]

/-! Claim C7: the detector's log indicator. -/

/-- C7, counterexample: the claim says the indicator is satisfied exactly
when a log line contains the marker under case-insensitive comparison, so a
line carrying the marker in lower case should satisfy it; the source's
`log.includes('Instruction: Migrate')` is case-sensitive and rejects it. -/
theorem c7_counterexample :
    ¬ (hasMigrateLog ["program log: instruction: migrate"] = true ↔
        ∃ l ∈ (["program log: instruction: migrate"] : List String),
          (lowerStr "Instruction: Migrate").toList <:+: (lowerStr l).toList) := by
  decide

/-- C7 amended: `hasMigrateLog` (the log half of `hasMigrateInstruction`)
is true exactly when some log line contains the literal marker
`"Instruction: Migrate"` under case-sensitive comparison; a log line
carrying the marker in a different letter case does not satisfy it. -/
theorem c7_log_indicator_exact :
    ∀ logs : List String,
      hasMigrateLog logs = true ↔
        ∃ l ∈ logs, "Instruction: Migrate".toList <:+: l.toList := by
  intro logs
  simp [hasMigrateLog, strContains, List.any_eq_true]

/-- C7 amended, witness: an exact-case log line satisfies the indicator. -/
theorem c7_witness :
    hasMigrateLog ["Program log: Instruction: Migrate"] = true :=
  (c7_log_indicator_exact ["Program log: Instruction: Migrate"]).mpr (by decide)

/-! Claim C10: the orchestrator's cheap pre-filter never discards logs that
would classify positively through the detector's log check. -/

/-- C10: whenever the detector's log-based migration check accepts a list
of log lines, the orchestrator's pre-filter `hasMigrationIndicators`
accepts it as well (the marker lower-cases into the `migrate` keyword the
pre-filter scans for). -/
theorem c10_prefilter_complete :
    ∀ logs : List String,
      hasMigrateLog logs = true → hasMigrationIndicators logs = true := by
  intro logs h
  rw [hasMigrateLog, List.any_eq_true] at h
  obtain ⟨l, hmem, hc⟩ := h
  rw [strContains_iff] at hc
  have h1 : l.toList <:+: (joinSp logs).toList := mem_sub_joinSp hmem
  have h2 : "Instruction: Migrate".toList <:+: (joinSp logs).toList :=
    sub_trans hc h1
  have h3 : ("Instruction: Migrate".toList.map Char.toLower) <:+:
      ((joinSp logs).toList.map Char.toLower) := sub_map _ h2
  have h4 : "migrate".toList <:+:
      ("Instruction: Migrate".toList.map Char.toLower) := by decide
  have h5 : strContains (lowerStr (joinSp logs)) "migrate" = true := by
    rw [strContains_iff, lowerStr_toList]
    exact sub_trans h4 h3
  simp [hasMigrationIndicators, h5]

/-- C10, witness: a concrete log line accepted by the detector's log check
is accepted by the pre-filter. -/
theorem c10_witness :
    hasMigrationIndicators ["Program log: Instruction: Migrate"] = true :=
  c10_prefilter_complete _ (by decide)

/-! Claim C1: the detector's classification rule. -/

/-- C1, counterexample: the claim states classification is an `iff` over
the log lines alone, but `hasMigrateInstruction` has a second, instruction
based path (`programId === config.pumpFunProgramId` with migrate data or a
`migrate` parsed type): `txNoLogs` has empty logs, hence no migration
marker in any log line, yet it is classified as a migration. -/
theorem c1_counterexample :
    ¬ ((detectMigrationFromTransaction sampleCfg (some txNoLogs) "SIG1").isMigration
          = true ↔
        specLogOnlyClassification ([] : List String)) := by
  decide

/-- C1 amended: for every transaction record without an execution error,
`isMigration` holds iff (the log lines contain the migration marker OR some
top-level instruction targets the watched program with a migrate-flavoured
payload) AND no log line contains any of the three exclusion markers;
exclusion markers are authoritative even when migration evidence exists. -/
theorem c1_classification_rule :
    ∀ (cfg : Config) (t : TxTransaction) (lm : Option (List String)) (s : String),
      (detectMigrationFromTransaction cfg (some ⟨t, some ⟨none, lm⟩⟩) s).isMigration
          = true ↔
        ((∃ l ∈ lm.getD [], "Instruction: Migrate".toList <:+: l.toList) ∨
          (∃ ix ∈ t.message.instructions.getD [], ixMigrateMatch cfg ix = true)) ∧
        (∀ l ∈ lm.getD [],
          ¬ ("Instruction: CollectCreatorFee".toList <:+: l.toList) ∧
          ¬ ("Instruction: MigrateBondingCurveCreator".toList <:+: l.toList) ∧
          ¬ ("Instruction: DistributeCreatorFees".toList <:+: l.toList)) := by
  intro cfg t lm s
  have hred : (detectMigrationFromTransaction cfg (some ⟨t, some ⟨none, lm⟩⟩) s).isMigration
      = (hasMigrateInstruction cfg (t.message.instructions.getD [])
            (lm.getD []) && !hasCollectFee (lm.getD [])) := by
    show (if hasMigrateInstruction cfg (t.message.instructions.getD [])
              (lm.getD []) && !hasCollectFee (lm.getD [])
          then (⟨true, extractTokenMint cfg t (t.message.instructions.getD []),
                  some s⟩ : MigrationDetectionResult)
          else ⟨false, none, none⟩).isMigration = _
    split
    · rename_i h; simp [h]
    · rename_i h; simp [eq_comm, h]
  rw [hred, Bool.and_eq_true, Bool.not_eq_true',
    hasMigrateInstruction_eq, Bool.or_eq_true, hasMigrateLog_iff,
    List.any_eq_true, hasCollectFee_eq_false_iff]

/-- C1 amended, witness: a clean transaction whose only log line carries
the migration marker is classified as a migration. -/
theorem c1_witness :
    (detectMigrationFromTransaction sampleCfg
        (some ⟨⟨⟨some [samplePumpAddr], some []⟩⟩,
          some ⟨none, some ["Program log: Instruction: Migrate"]⟩⟩)
        "SIG1").isMigration = true :=
  (c1_classification_rule sampleCfg ⟨⟨some [samplePumpAddr], some []⟩⟩
      (some ["Program log: Instruction: Migrate"]) "SIG1").mpr (by decide)

/-! Claim C6: the detector never raises; missing data is no evidence. -/

/-- C6: the detector is a total function and every degraded input shape
yields "no evidence" rather than an error: a missing record and a missing
`meta` classify as not-a-migration with no mint; missing instruction lists
and missing log lists behave exactly as empty ones. -/
theorem c6_detector_degrades :
    (∀ (cfg : Config) (s : String),
      detectMigrationFromTransaction cfg none s = ⟨false, none, none⟩) ∧
    (∀ (cfg : Config) (t : TxTransaction) (s : String),
      detectMigrationFromTransaction cfg (some ⟨t, none⟩) s = ⟨false, none, none⟩) ∧
    (∀ (cfg : Config) (ks : Option (List String)) (me : Option TxMeta) (s : String),
      detectMigrationFromTransaction cfg (some ⟨⟨⟨ks, none⟩⟩, me⟩) s =
        detectMigrationFromTransaction cfg (some ⟨⟨⟨ks, some []⟩⟩, me⟩) s) ∧
    (∀ (cfg : Config) (t : TxTransaction) (e : Option String) (s : String),
      detectMigrationFromTransaction cfg (some ⟨t, some ⟨e, none⟩⟩) s =
        detectMigrationFromTransaction cfg (some ⟨t, some ⟨e, some []⟩⟩) s) := by
  refine ⟨fun _ _ => rfl, fun _ _ _ => rfl, ?_, ?_⟩
  · intro cfg ks me s
    cases me with
    | none => rfl
    | some m => rfl
  · intro cfg t e s
    cases e with
    | none => rfl
    | some ev => rfl

/-- C6, witness: a missing record degrades to a negative result. -/
theorem c6_witness :
    detectMigrationFromTransaction sampleCfg none "SIG1" = ⟨false, none, none⟩ :=
  c6_detector_degrades.1 sampleCfg "SIG1"

/-! Claim C2: the token-mint extraction priority order. -/

theorem mem_of_lookupKey {keys : List String} {i : Int} {a : String}
    (h : lookupKey keys i = some a) : a ∈ keys := by
  unfold lookupKey at h
  split at h
  · exact List.get?_mem h
  · cases h

theorem accountsMint_eq_none {keys : List String}
    (h : keys.find? isPumpAddr = none) (ix : Ix) :
    accountsMint keys ix = none := by
  unfold accountsMint
  cases hac : ix.accounts with
  | none => rfl
  | some idxs =>
    apply findSome?_eq_none_of
    intro i _
    cases hk : lookupKey keys i with
    | none => rfl
    | some a =>
      have hmem : a ∈ keys := mem_of_lookupKey hk
      have hfail : ¬ (isPumpAddr a = true) := List.find?_eq_none.mp h a hmem
      simp [Bool.not_eq_true] at hfail
      simp [hfail]

/-- C2: `extractTokenMint` realises the claimed strict priority order:
first the whole top-level account list for a vanity-suffix address, then
the instructions' account indices, then decoded payload mint fields, then
the 44-character fallback — with the first match winning.  The source text
interleaves the payload and account-index checks per instruction, but the
account-index tier can only ever return addresses that already occur in the
top-level list, so the two orderings coincide extensionally; in particular
a vanity-suffix address in the top-level list always beats one reached
through a nested instruction's indices. -/
theorem c2_extraction_priority :
    ∀ (cfg : Config) (t : TxTransaction) (instructions : List Ix),
      extractTokenMint cfg t instructions =
        extractTokenMintSpecTiers cfg t instructions := by
  intro cfg t instructions
  unfold extractTokenMint extractTokenMintSpecTiers
  cases hfind : (t.message.accountKeys.getD []).find? isPumpAddr with
  | some a => simp [hfind]
  | none =>
    have h1 : instructions.findSome? (accountsMint (t.message.accountKeys.getD []))
        = none :=
      findSome?_eq_none_of (fun ix _ => accountsMint_eq_none hfind ix)
    have h2 : instructions.findSome? (ixMintStep (t.message.accountKeys.getD []))
        = instructions.findSome? payloadMint := by
      apply findSome?_congr_of
      intro ix _
      unfold ixMintStep
      rw [accountsMint_eq_none hfind ix]
      cases payloadMint ix <;> rfl
    simp [hfind, h1, h2]

/-- C2, witness: when the top-level account list holds one vanity-suffix
address and a nested instruction's account indices reach a different one,
the top-level one is returned. -/
theorem c2_witness :
    extractTokenMint sampleCfg
        ⟨⟨some [samplePumpAddr, samplePumpAddr2], some [nestedIx]⟩⟩
        [nestedIx] = some samplePumpAddr := by
  rw [c2_extraction_priority]
  decide

/-! Claim C5: the dedup ledger cap and eviction order. -/

/-- C5: ledger maintenance caps the ledger at 1000 entries, what survives
is a suffix of the insertion-ordered ledger (so exactly the earliest
inserted entries are evicted), and a 1001-entry ledger loses precisely its
single oldest entry. -/
theorem c5_ledger_cap :
    ∀ l : List String,
      (cleanupLedger l).length = min l.length 1000 ∧
      (cleanupLedger l) <:+ l ∧
      (l.length = 1001 → cleanupLedger l = l.drop 1) := by
  intro l
  refine ⟨?_, ?_, ?_⟩
  · unfold cleanupLedger
    split
    · rename_i h; rw [List.length_drop]; omega
    · rename_i h; rw [Nat.min_def]; split <;> omega
  · unfold cleanupLedger
    split
    · exact List.drop_suffix _ _
    · exact List.suffix_refl l
  · intro h
    unfold cleanupLedger
    rw [h, if_pos (by omega)]

/-- C5, witness at 1001 concrete entries. -/
theorem c5_witness :
    cleanupLedger (List.replicate 1001 "SIG") =
      (List.replicate 1001 "SIG").drop 1 :=
  (c5_ledger_cap _).2.2 (by rw [List.length_replicate])

/-! Claims C3, C4, C8: orchestrator dedup, ledger admission and retry. -/

theorem mem_cleanupLedger_append (l : List String) (x : String) :
    x ∈ cleanupLedger (l ++ [x]) := by
  unfold cleanupLedger
  split
  · rename_i h
    rw [List.length_append] at h
    rw [List.drop_append_of_le_length (by simp)]
    simp
  · simp

theorem fetchAndProcess_of_mem {env : Env} {sig : String} {st : OrchState}
    (h : sig ∈ st.ledger) : fetchAndProcessTransaction env sig st = st := by
  unfold fetchAndProcessTransaction
  rw [if_pos h]

/-- On a successful fetch of a transaction the detector accepts, the queue
is untouched, the fetch and classification counters each advance once, and
the signature lands in the ledger. -/
theorem fetchAndProcess_pos_fields {env : Env} {sig : String} {st : OrchState}
    {tx : Tx} (hmem : sig ∉ st.ledger) (hf : env.fetch sig = .ok tx)
    (hdet : (detectMigrationFromTransaction env.cfg (some tx) sig).isMigration = true) :
    (fetchAndProcessTransaction env sig st).queue = st.queue ∧
    (fetchAndProcessTransaction env sig st).fetchCount = st.fetchCount + 1 ∧
    (fetchAndProcessTransaction env sig st).classifyCount = st.classifyCount + 1 ∧
    sig ∈ (fetchAndProcessTransaction env sig st).ledger := by
  unfold fetchAndProcessTransaction
  rw [if_neg hmem, hf]
  simp only [hdet, Bool.not_true]
  cases hp : env.parseResult tx
      (detectMigrationFromTransaction env.cfg (some tx) sig).tokenMint sig with
  | none => simp
  | some mint =>
    cases ht : env.tokenDataFound mint with
    | false => simp [ht]
    | true => simp [ht, mem_cleanupLedger_append]

/-- C3, counterexample: `"SIG1"` is dequeued, fetched successfully and
classified as not a migration (`nonMigTx` carries an exclusion marker), yet
the orchestrator returns without adding it to the ledger — the source's
`if (!detection.isMigration) return;` precedes every
`processedSignatures.add`. -/
theorem c3_counterexample :
    (detectMigrationFromTransaction sampleCfg (some nonMigTx) "SIG1").isMigration
        = false ∧
    "SIG1" ∉ (fetchAndProcessTransaction sampleEnvNonMig "SIG1" orchInit).ledger := by
  decide

/-- C3 amended: a signature enters the ledger exactly when its fetched
transaction is classified as a migration: a negative classification leaves
the ledger untouched (so the same non-migration signature can be fetched
again later), a positive one records the signature, and enqueuing alone
never touches the ledger. -/
theorem c3_ledger_admission :
    (∀ (env : Env) (sig : String) (st : OrchState) (tx : Tx),
      env.fetch sig = .ok tx →
      (detectMigrationFromTransaction env.cfg (some tx) sig).isMigration = false →
      (fetchAndProcessTransaction env sig st).ledger = st.ledger) ∧
    (∀ (env : Env) (sig : String) (st : OrchState) (tx : Tx),
      sig ∉ st.ledger →
      env.fetch sig = .ok tx →
      (detectMigrationFromTransaction env.cfg (some tx) sig).isMigration = true →
      sig ∈ (fetchAndProcessTransaction env sig st).ledger) ∧
    (∀ (logs : List String) (sig : String) (st : OrchState),
      (onLogsNotification logs sig st).ledger = st.ledger) := by
  refine ⟨?_, ?_, ?_⟩
  · intro env sig st tx hf hdet
    by_cases hmem : sig ∈ st.ledger
    · rw [fetchAndProcess_of_mem hmem]
    · unfold fetchAndProcessTransaction
      rw [if_neg hmem, hf]
      simp [hdet]
  · intro env sig st tx hmem hf hdet
    exact (fetchAndProcess_pos_fields hmem hf hdet).2.2.2
  · intro logs sig st
    unfold onLogsNotification
    split <;> rfl

/-- C3, witness: a positively classified fetch records the signature. -/
theorem c3_witness :
    "SIG1" ∈ (fetchAndProcessTransaction sampleEnvMig "SIG1" orchInit).ledger :=
  c3_ledger_admission.2.1 sampleEnvMig "SIG1" orchInit migTx (by decide) rfl
    (by decide)

theorem processQueueStep_cons {env : Env} {st : OrchState} {sig : String}
    {rest : List String} (h : st.queue = sig :: rest) :
    processQueueStep env st =
      fetchAndProcessTransaction env sig { st with queue := rest } := by
  unfold processQueueStep
  rw [h]

/-- C4, counterexample: enqueuing `"SIG1"` twice and draining the queue
against a non-migration transaction produces two fetches (negative
classifications never enter the ledger, so the dedup check cannot stop the
second fetch); and the stream callback happily re-enqueues a signature that
is already in the ledger (it never consults the ledger), contradicting the
claimed invariant. -/
theorem c4_counterexample :
    (processQueueStep sampleEnvNonMig
        (processQueueStep sampleEnvNonMig ⟨[], ["SIG1", "SIG1"], 0, 0, []⟩)).fetchCount
      = 2 ∧
    "SIG1" ∈ (onLogsNotification [] "SIG1" ⟨["SIG1"], [], 0, 0, []⟩).queue := by
  decide

/-- C4 amended: the duplicate-enqueue guarantee holds only when the
transaction is classified as a migration (only then does the signature
enter the ledger): draining a queue holding the same unprocessed signature
twice then performs exactly one fetch and one classification; and a
signature already in the ledger is dequeued without any fetch.  The stream
callback itself may re-enqueue ledger-present signatures — the protection
is the dequeue-time ledger check, not the enqueue path. -/
theorem c4_dedup_on_migration :
    (∀ (env : Env) (sig : String) (st : OrchState) (tx : Tx),
      st.queue = [sig, sig] →
      sig ∉ st.ledger →
      env.fetch sig = .ok tx →
      (detectMigrationFromTransaction env.cfg (some tx) sig).isMigration = true →
      (processQueueStep env (processQueueStep env st)).fetchCount
          = st.fetchCount + 1 ∧
      (processQueueStep env (processQueueStep env st)).classifyCount
          = st.classifyCount + 1) ∧
    (∀ (env : Env) (sig : String) (rest : List String) (st : OrchState),
      st.queue = sig :: rest →
      sig ∈ st.ledger →
      processQueueStep env st = { st with queue := rest }) := by
  constructor
  · intro env sig st tx hq hmem hf hdet
    have hstep1 : processQueueStep env st =
        fetchAndProcessTransaction env sig { st with queue := [sig] } :=
      processQueueStep_cons hq
    have hfields :=
      @fetchAndProcess_pos_fields env sig { st with queue := [sig] } tx hmem hf hdet
    have hq1 : (processQueueStep env st).queue = [sig] := by
      rw [hstep1]
      exact hfields.1
    have hmem1 : sig ∈ (processQueueStep env st).ledger := by
      rw [hstep1]
      exact hfields.2.2.2
    have hstep2 : processQueueStep env (processQueueStep env st) =
        fetchAndProcessTransaction env sig
          { processQueueStep env st with queue := [] } :=
      processQueueStep_cons hq1
    rw [hstep2,
      @fetchAndProcess_of_mem env sig
        { processQueueStep env st with queue := [] } hmem1,
      hstep1]
    exact ⟨hfields.2.1, hfields.2.2.1⟩
  · intro env sig rest st hq hmem
    rw [processQueueStep_cons hq]
    exact @fetchAndProcess_of_mem env sig { st with queue := rest } hmem

/-- C4, witness: with a migration transaction, the duplicate enqueue of
`"SIG1"` results in exactly one fetch and one classification. -/
theorem c4_witness :
    (processQueueStep sampleEnvMig
        (processQueueStep sampleEnvMig ⟨[], ["SIG1", "SIG1"], 0, 0, []⟩)).fetchCount
      = 0 + 1 ∧
    (processQueueStep sampleEnvMig
        (processQueueStep sampleEnvMig ⟨[], ["SIG1", "SIG1"], 0, 0, []⟩)).classifyCount
      = 0 + 1 :=
  c4_dedup_on_migration.1 sampleEnvMig "SIG1" ⟨[], ["SIG1", "SIG1"], 0, 0, []⟩
    migTx rfl (by decide) rfl (by decide)

/-- C8: when a dequeued, unprocessed signature's fetch throws, the
signature is re-enqueued at the back of the queue precisely when the error
is a rate-limit signal (a message mentioning `429` or
`Too Many Requests`); every other fetch failure is dropped with no retry,
and in all error cases nothing else changes beyond the fetch counter. -/
theorem c8_rate_limit_retry :
    ∀ (env : Env) (sig : String) (rest : List String) (st : OrchState)
      (msg : String),
      st.queue = sig :: rest →
      sig ∉ st.ledger →
      env.fetch sig = .err msg →
      processQueueStep env st =
        { st with
            queue := if isRateLimitError msg then rest ++ [sig] else rest
            fetchCount := st.fetchCount + 1 } := by
  intro env sig rest st msg hq hmem hf
  rw [processQueueStep_cons hq]
  unfold fetchAndProcessTransaction
  rw [if_neg hmem, hf]
  cases hr : isRateLimitError msg with
  | false => simp [hr]
  | true => simp [hr, hmem]

/-- C8, witness: a concrete rate-limited fetch re-enqueues the signature. -/
theorem c8_witness :
    processQueueStep sampleEnvErr ⟨[], ["SIG1"], 0, 0, []⟩ =
      { (⟨[], ["SIG1"], 0, 0, []⟩ : OrchState) with
          queue := if isRateLimitError "429 Too Many Requests"
                   then [] ++ ["SIG1"] else []
          fetchCount := 0 + 1 } :=
  c8_rate_limit_retry sampleEnvErr "SIG1" [] ⟨[], ["SIG1"], 0, 0, []⟩
    "429 Too Many Requests" rfl (by decide) rfl

/-! Claim C9: the reconnect policy. -/

theorem scheduleReconnect_clean (m : Nat) :
    scheduleReconnect ⟨m, false, false, m⟩ =
      if maxReconnectAttempts ≤ m then ⟨m, false, false, m⟩
      else ⟨m + 1, true, true, m + 1⟩ := by
  unfold scheduleReconnect
  by_cases h : maxReconnectAttempts ≤ m
  · rw [if_neg (by simp), if_pos h]
  · rw [if_neg (by simp), if_neg h]

theorem discCycle_clean {code : Nat} (hcode : isAuthCloseCode code = false)
    (m : Nat) :
    discCycle code ⟨m, false, false, m⟩ =
      if maxReconnectAttempts ≤ m then ⟨m, false, false, m⟩
      else ⟨m + 1, false, false, m + 1⟩ := by
  unfold discCycle handleClose
  rw [if_neg (by simp [hcode])]
  have hcl : wsCleanup ⟨m, false, false, m⟩ = ⟨m, false, false, m⟩ := rfl
  rw [hcl, scheduleReconnect_clean]
  by_cases h : maxReconnectAttempts ≤ m
  · rw [if_pos h, if_pos h]
    rfl
  · rw [if_neg h, if_neg h]
    rfl

/-- C9: a close with one of the two auth close codes schedules no
reconnect whatsoever (the handler returns the state unchanged); for every
other close code, iterating whole disconnect cycles from a fresh client
yields exactly `min n maxReconnectAttempts` scheduled reconnect attempts —
so `n = maxReconnectAttempts` consecutive non-auth disconnects produce
exactly `maxReconnectAttempts` attempts, and any further disconnects add
none. -/
theorem c9_reconnect_policy :
    (∀ (st : WsState) (code : Nat),
      isAuthCloseCode code = true → handleClose code st = st) ∧
    (∀ (code : Nat), isAuthCloseCode code = false →
      ∀ n : Nat, (discCycle code)^[n] wsInit =
        ⟨min n maxReconnectAttempts, false, false,
          min n maxReconnectAttempts⟩) := by
  constructor
  · intro st code h
    unfold handleClose
    rw [if_pos h]
  · intro code hcode n
    induction n with
    | zero => simp [wsInit]
    | succ n ih =>
      rw [Function.iterate_succ_apply', ih, discCycle_clean hcode]
      by_cases h : maxReconnectAttempts ≤ n
      · rw [if_pos (by omega)]
        have h1 : min n maxReconnectAttempts = min (n + 1) maxReconnectAttempts := by
          omega
        rw [h1]
      · rw [if_neg (by omega)]
        have h1 : min n maxReconnectAttempts + 1 = min (n + 1) maxReconnectAttempts := by
          omega
        rw [h1]

/-- C9, witness: the auth close code 1008 is terminal for a fresh client,
and 15 consecutive non-auth disconnects (code 1006) schedule exactly
`maxReconnectAttempts = 10` reconnect attempts. -/
theorem c9_witness :
    handleClose 1008 wsInit = wsInit ∧
    (discCycle 1006)^[15] wsInit = ⟨10, false, false, 10⟩ := by
  refine ⟨c9_reconnect_policy.1 wsInit 1008 (by decide), ?_⟩
  have h := c9_reconnect_policy.2 1006 (by decide) 15
  simpa [maxReconnectAttempts] using h

end PumpBot
